import Mathlib

/-!
Verification of the chain-state store in `src/api/services/chain/db.ts`
(`ChainDatabase`, a Dexie/IndexedDB wrapper of a browser wallet extension).

Shallow embedding conventions:
* Each Dexie table becomes a `List` of rows inside a `ChainDatabase` record;
  rows appear in insertion order, matching an auto-incremented or appended
  primary key.
* Every call site of `Date.now()` becomes an explicit `now : Int` argument
  (milliseconds, like `Date.now()`).
* Asynchronous methods that cannot fail become plain functions; `bulkAdd`,
  which rejects on a duplicate primary key and aborts its enclosing
  transaction, returns an `Option`.
* JavaScript `Promise` objects are modelled by `JSPromise`, so that the
  source's indexing of an unawaited promise can be embedded faithfully.
-/

namespace Taho

/-- Modelled from the spec: the `Network` identity value type from the
repository's `types.ts` (which is not under `src/`): `{ family, chainID,
name }`. -/
structure Network where
  name : String
  chainID : String
  family : String
  deriving DecidableEq

/-- Modelled from the spec: `AccountNetwork` — an account tracked on a
particular network. -/
structure AccountNetwork where
  account : String
  network : Network
  deriving DecidableEq

/-- Modelled from the spec: the partial block header `EIP1559Block`:
`{ hash, parentHash, blockHeight, timestamp, network }`. -/
structure EIP1559Block where
  hash : String
  parentHash : String
  blockHeight : Int
  timestamp : Int
  network : Network
  deriving DecidableEq

/-- Modelled from the spec: a fungible asset; only `symbol` is indexed by
the store. -/
structure FungibleAsset where
  name : String
  symbol : String
  deriving DecidableEq

/-- Modelled from the spec: an amount of a fungible asset. -/
structure AssetAmount where
  amount : Int
  asset : FungibleAsset
  deriving DecidableEq

/-- Modelled from the spec: `AccountBalance` —
`{ account, network, assetAmount, blockHeight, retrievedAt }`. -/
structure AccountBalance where
  account : String
  assetAmount : AssetAmount
  network : Network
  blockHeight : Option Int
  retrievedAt : Int
  deriving DecidableEq

/-- The TypeScript string-literal union `"alchemy" | "local"` of
`Transaction["dataSource"]`.  `local` is a Lean keyword, hence `local'`. -/
inductive DataSource where
  | alchemy : DataSource
  | local' : DataSource
  deriving DecidableEq

/-- Modelled from the spec: `AnyEVMTransaction` — the chain-supplied
transaction value; the store indexes `hash`, `from`, `to`, `nonce`,
`blockHash`, `blockNumber` and `network.name`.  `from` is a Lean keyword,
hence `fromAddr`/`toAddr`.  `blockHash`/`blockHeight` are `null` for a
pending transaction. -/
structure AnyEVMTransaction where
  hash : String
  fromAddr : String
  toAddr : String
  nonce : Int
  value : Int
  input : String
  blockHash : Option String
  blockHeight : Option Int
  network : Network
  deriving DecidableEq

/-- The stored transaction row: `AnyEVMTransaction & { dataSource, firstSeen }`
(`type Transaction` in `db.ts`). -/
structure Transaction extends AnyEVMTransaction where
  dataSource : DataSource
  firstSeen : Int
  deriving DecidableEq

/-- A row of the migrations ledger: `{ id, appliedAt }`. -/
structure Migration where
  id : Nat
  appliedAt : Int
  deriving DecidableEq

/-- The persisted state of the five Dexie tables of `ChainDatabase`. -/
structure ChainDatabase where
  accountsToTrack : List AccountNetwork
  blocks : List EIP1559Block
  transactions : List Transaction
  balances : List AccountBalance
  migrations : List Migration
  deriving DecidableEq

/-- A freshly created, empty store (`new ChainDatabase()` before any write). -/
def freshChainDatabase : ChainDatabase :=
  { accountsToTrack := [], blocks := [], transactions := [], balances := [],
    migrations := [] }

/-- A JavaScript `Promise` that will resolve to `resolved`.  The value inside
is reachable only through `await`. -/
structure JSPromise (α : Type) where
  resolved : α

/-- JavaScript property access `p[i]` applied to a `Promise` object itself
(not to the array it resolves to): a `Promise` exposes no numeric index
properties, so the access yields `undefined` (`none`), whatever the promise
will resolve to.  This is what `sortBy("timestamp")[0]` does in
`getLatestBlock`, where the promise returned by `sortBy` is indexed without
`await`. -/
def JSPromise.indexAccess (_p : JSPromise (List α)) (_i : Nat) : Option α :=
  none

/-- Strict lexicographic order on IndexedDB compound keys
`[network.name, timestamp]`: `.above(bound)` on the
`[network.name+timestamp]` index matches every stored key strictly greater
than `bound`, comparing the name first and then the timestamp. -/
def compoundKeyAbove (bound : String × Int) (k : String × Int) : Bool :=
  decide (bound.1 < k.1) || (bound.1 == k.1 && decide (bound.2 < k.2))

/-- Descending order on block timestamps: the sort direction produced by
`.reverse().sortBy("timestamp")`. -/
def byTimestampDesc (a b : EIP1559Block) : Prop :=
  b.timestamp ≤ a.timestamp

instance : DecidableRel byTimestampDesc :=
  fun a b => inferInstanceAs (Decidable (b.timestamp ≤ a.timestamp))

instance : IsTotal EIP1559Block byTimestampDesc :=
  ⟨fun a b => le_total b.timestamp a.timestamp⟩

instance : IsTrans EIP1559Block byTimestampDesc :=
  ⟨fun _ _ _ hab hbc => le_trans hbc hab⟩

/-- The promise built inside `getLatestBlock`:
`this.blocks.where("[network.name+timestamp]").above([network.name,
Date.now() - 60 * 60 * 24]).reverse().sortBy("timestamp")` — the blocks
whose compound key lies strictly above the bound, sorted by descending
timestamp.  Note the bound mixes a millisecond clock with a bare `86400`. -/
def ChainDatabase.latestBlockSortedPromise (db : ChainDatabase)
    (network : Network) (now : Int) : JSPromise (List EIP1559Block) :=
  ⟨List.insertionSort byTimestampDesc
    (db.blocks.filter (fun b =>
      compoundKeyAbove (network.name, now - 60 * 60 * 24)
        (b.network.name, b.timestamp)))⟩

/-- Embeds `getLatestBlock(network)`: the source returns
`...sortBy("timestamp")[0]` — index `0` of the *unawaited* promise. -/
def ChainDatabase.getLatestBlock (db : ChainDatabase) (network : Network)
    (now : Int) : Option EIP1559Block :=
  (db.latestBlockSortedPromise network now).indexAccess 0

/-- Spec-side predicate (from the spec's words, for stating claims): a
stored block belongs to `network` and its timestamp lies within the last
24 hours before `now`, all times in milliseconds. -/
def blockInRecencyWindow (now : Int) (network : Network)
    (b : EIP1559Block) : Prop :=
  b.network.name = network.name ∧ now - 24 * 60 * 60 * 1000 < b.timestamp

instance (now : Int) (network : Network) (b : EIP1559Block) :
    Decidable (blockInRecencyWindow now network b) :=
  inferInstanceAs (Decidable (_ ∧ _))

/-- A sample network and three blocks for it with timestamps
`t1 < t2 < t3`, all within 24 hours of `sampleNow`. -/
def sampleNetwork : Network :=
  { name := "ethereum", chainID := "1", family := "EVM" }

def sampleNow : Int := 1700000000000

def sampleBlock1 : EIP1559Block :=
  { hash := "0xb1", parentHash := "0xb0", blockHeight := 101,
    timestamp := sampleNow - 3000, network := sampleNetwork }

def sampleBlock2 : EIP1559Block :=
  { hash := "0xb2", parentHash := "0xb1", blockHeight := 102,
    timestamp := sampleNow - 2000, network := sampleNetwork }

def sampleBlock3 : EIP1559Block :=
  { hash := "0xb3", parentHash := "0xb2", blockHeight := 103,
    timestamp := sampleNow - 1000, network := sampleNetwork }

def sampleBlockDB : ChainDatabase :=
  { freshChainDatabase with
    blocks := [sampleBlock1, sampleBlock2, sampleBlock3] }

/-- The Boolean test of the `[hash+network.name]` key of a stored
transaction row against the key `[txHash, networkName]`. -/
def txKeyMatches (txHash networkName : String) (t : Transaction) : Bool :=
  t.hash == txHash && t.network.name == networkName

/-- Embeds `getTransaction(network, txHash)`: the rows whose `[hash+network.name]`
equals the key, then `[0] || null`. -/
def ChainDatabase.getTransaction (db : ChainDatabase) (network : Network)
    (txHash : String) : Option Transaction :=
  (db.transactions.filter (txKeyMatches txHash network.name)).head?

/-- Dexie `Table.put` on the `transactions` table, whose primary key is the
unique compound index `&[hash+network.name]`: replace the rows carrying the
new row's key, or append when none does. -/
def putTransaction (rows : List Transaction) (t : Transaction) :
    List Transaction :=
  if rows.any (txKeyMatches t.hash t.network.name) then
    rows.map (fun r => if txKeyMatches t.hash t.network.name r then t else r)
  else
    rows ++ [t]

/-- The row-level effect of
`.where("[hash+network.name]").equals(key).modify({ blockHeight:
tx.blockHeight, blockHash: tx.blockHash })`: a row carrying the key gets
only its `blockHeight` and `blockHash` overwritten; any other row is left
alone. -/
def mergeIfMatch (tx : AnyEVMTransaction) (t : Transaction) : Transaction :=
  if txKeyMatches tx.hash tx.network.name t then
    { t with blockHeight := tx.blockHeight, blockHash := tx.blockHash }
  else t

/-- The row built by the insert branch:
`{...tx, firstSeen: Date.now(), dataSource}`. -/
def newTransactionRow (tx : AnyEVMTransaction) (dataSource : DataSource)
    (now : Int) : Transaction :=
  { toAnyEVMTransaction := tx, dataSource := dataSource, firstSeen := now }

/-- Embeds `addOrUpdateTransaction(tx, dataSource)`: inside one transaction scope,
look up the row keyed `[tx.hash, tx.network.name]`; if present, `modify`
only `blockHeight` and `blockHash` on the matching rows; otherwise `put`
`{...tx, firstSeen: Date.now(), dataSource}`. -/
def ChainDatabase.addOrUpdateTransaction (db : ChainDatabase)
    (tx : AnyEVMTransaction) (dataSource : DataSource) (now : Int) :
    ChainDatabase :=
  match db.transactions.find? (txKeyMatches tx.hash tx.network.name) with
  | some _ =>
    { db with transactions := db.transactions.map (mergeIfMatch tx) }
  | none =>
    { db with
      transactions := putTransaction db.transactions
        (newTransactionRow tx dataSource now) }

/-- Descending order on balance retrieval times: the sort direction
produced by `.reverse().sortBy("retrievedAt")`. -/
def byRetrievedAtDesc (a b : AccountBalance) : Prop :=
  b.retrievedAt ≤ a.retrievedAt

instance : DecidableRel byRetrievedAtDesc :=
  fun a b => inferInstanceAs (Decidable (b.retrievedAt ≤ a.retrievedAt))

instance : IsTotal AccountBalance byRetrievedAtDesc :=
  ⟨fun a b => le_total b.retrievedAt a.retrievedAt⟩

instance : IsTrans AccountBalance byRetrievedAtDesc :=
  ⟨fun _ _ _ hab hbc => le_trans hbc hab⟩

/-- The unindexed post-filter of `getLatestAccountBalance`: exact match on
`account`, `assetAmount.asset.symbol` and `network.name`. -/
def balanceMatches (account : String) (network : Network)
    (asset : FungibleAsset) (balance : AccountBalance) : Bool :=
  balance.account == account &&
    balance.assetAmount.asset.symbol == asset.symbol &&
    balance.network.name == network.name

/-- Embeds the `balanceCandidates` query of `getLatestAccountBalance`:
`.where("retrievedAt").above(Date.now() - 7 * 24 * 60 * 60 * 1000)`, then
`.filter(...)`, then `.reverse().sortBy("retrievedAt")` — rows strictly
inside the 7-day window that match, sorted by descending `retrievedAt`. -/
def ChainDatabase.balanceCandidates (db : ChainDatabase) (account : String)
    (network : Network) (asset : FungibleAsset) (now : Int) :
    List AccountBalance :=
  List.insertionSort byRetrievedAtDesc
    ((db.balances.filter (fun balance =>
        decide (now - 7 * 24 * 60 * 60 * 1000 < balance.retrievedAt))).filter
      (balanceMatches account network asset))

/-- Embeds `getLatestAccountBalance(account, network, asset)`:
`balanceCandidates.length > 0 ? balanceCandidates[0] : null`. -/
def ChainDatabase.getLatestAccountBalance (db : ChainDatabase)
    (account : String) (network : Network) (asset : FungibleAsset)
    (now : Int) : Option AccountBalance :=
  let balanceCandidates := db.balanceCandidates account network asset now
  if balanceCandidates.length > 0 then balanceCandidates[0]? else none

/-- Spec-side predicate (from the spec's words, for stating claims): a
balance row qualifies when its `retrievedAt` lies strictly within the last
7 days and it matches `account`, `asset.symbol` and `network.name`
exactly. -/
def balanceQualifies (account : String) (network : Network)
    (asset : FungibleAsset) (now : Int) (b : AccountBalance) : Prop :=
  now - 7 * 24 * 60 * 60 * 1000 < b.retrievedAt ∧
    (b.account = account ∧ b.assetAmount.asset.symbol = asset.symbol ∧
      b.network.name = network.name)

instance (account : String) (network : Network) (asset : FungibleAsset)
    (now : Int) (b : AccountBalance) :
    Decidable (balanceQualifies account network asset now b) :=
  inferInstanceAs (Decidable (_ ∧ _))

/-- The primary key of the `accountsToTrack` table: the unique compound
index `&[account+network.name+network.chainID]` declared in the schema —
note that `network.family` is not part of it. -/
def accountNetworkKey (a : AccountNetwork) : String × String × String :=
  (a.account, a.network.name, a.network.chainID)

/-- Dexie `Table.put` on `accountsToTrack`: insert or replace by the
primary key `[account, network.name, network.chainID]`. -/
def putAccountNetwork (rows : List AccountNetwork) (a : AccountNetwork) :
    List AccountNetwork :=
  if rows.any (fun r => decide (accountNetworkKey r = accountNetworkKey a))
  then rows.map (fun r =>
    if accountNetworkKey r = accountNetworkKey a then a else r)
  else rows ++ [a]

/-- Embeds `addAccountToTrack(accountNetwork)`: `this.accountsToTrack.put(...)`. -/
def ChainDatabase.addAccountToTrack (db : ChainDatabase)
    (accountNetwork : AccountNetwork) : ChainDatabase :=
  { db with
    accountsToTrack := putAccountNetwork db.accountsToTrack accountNetwork }

/-- Dexie `Table.bulkAdd`: add the rows in order; a duplicate primary key
makes the call reject, which aborts and rolls back the enclosing
transaction (`none`). -/
def bulkAddAccountNetworks (rows : List AccountNetwork) :
    List AccountNetwork → Option (List AccountNetwork)
  | [] => some rows
  | a :: rest =>
    if rows.any (fun r => decide (accountNetworkKey r = accountNetworkKey a))
    then none
    else bulkAddAccountNetworks (rows ++ [a]) rest

/-- Embeds `setAccountsToTrack(accountAndNetworks)`: one `rw` transaction that
clears the table and `bulkAdd`s the entries; `none` when `bulkAdd` rejects
and the transaction is rolled back. -/
def ChainDatabase.setAccountsToTrack (db : ChainDatabase)
    (accountAndNetworks : List AccountNetwork) : Option ChainDatabase :=
  match bulkAddAccountNetworks [] accountAndNetworks with
  | some rows => some { db with accountsToTrack := rows }
  | none => none

/-- Embeds `getAccountsToTrack()`: `this.accountsToTrack.toArray()`. -/
def ChainDatabase.getAccountsToTrack (db : ChainDatabase) :
    List AccountNetwork :=
  db.accountsToTrack

/-- Embeds `getOrCreateDB()` acting on the persisted state: when the migrations
ledger is empty (`count() === 0`), add the sentinel row
`{ id: 0, appliedAt: Date.now() }` inside a transaction. -/
def getOrCreateDB (db : ChainDatabase) (now : Int) : ChainDatabase :=
  if db.migrations.length = 0 then
    { db with migrations := db.migrations ++ [{ id := 0, appliedAt := now }] }
  else db

/-- A sequence of `getOrCreateDB` calls, one per clock reading in `times`. -/
def getOrCreateDBRuns (db : ChainDatabase) : List Int → ChainDatabase
  | [] => db
  | t :: ts => getOrCreateDBRuns (getOrCreateDB db t) ts

/-- A sample pending transaction (no block association yet). -/
def sampleTxPending : AnyEVMTransaction :=
  { hash := "0xa", fromAddr := "0xf00", toAddr := "0xbar", nonce := 1,
    value := 5, input := "0x", blockHash := none, blockHeight := none,
    network := sampleNetwork }

/-- The same transaction as observed after confirmation into a block. -/
def sampleTxConfirmed : AnyEVMTransaction :=
  { sampleTxPending with blockHash := some "0xb3", blockHeight := some 103 }

/-- The stored row produced by inserting `sampleTxPending` locally. -/
def sampleStoredTx : Transaction :=
  { toAnyEVMTransaction := sampleTxPending, dataSource := DataSource.local',
    firstSeen := sampleNow - 500 }

/-- A store already holding `sampleStoredTx`. -/
def sampleTxDB : ChainDatabase :=
  { freshChainDatabase with transactions := [sampleStoredTx] }

/-- A sample asset. -/
def sampleAsset : FungibleAsset :=
  { name := "Ether", symbol := "ETH" }

/-- A balance row retrieved 8 days before `sampleNow` — outside the 7-day
freshness window. -/
def sampleBalanceStale : AccountBalance :=
  { account := "0xacc", assetAmount := { amount := 42, asset := sampleAsset },
    network := sampleNetwork, blockHeight := some 90,
    retrievedAt := sampleNow - 8 * 24 * 60 * 60 * 1000 }

/-- A store whose only balance row is the stale one. -/
def sampleStaleBalanceDB : ChainDatabase :=
  { freshChainDatabase with balances := [sampleBalanceStale] }

/-- Sample registry entries: `sampleAN1` and `sampleAN2` agree on
`account`, `network.name` and `network.chainID` and differ only in
`network.family`; `sampleAN3` has a different account. -/
def sampleAN1 : AccountNetwork :=
  { account := "0xacc",
    network := { name := "ethereum", chainID := "1", family := "EVM" } }

def sampleAN2 : AccountNetwork :=
  { account := "0xacc",
    network := { name := "ethereum", chainID := "1", family := "EVM2" } }

def sampleAN3 : AccountNetwork :=
  { account := "0xother", network := sampleNetwork }

/-! ## Theorems about the Block Tracker -/

/-- C10: for every store state and every network — including states holding
blocks for that network with timestamps inside the 24-hour window —
`getLatestBlock` resolves to the undefined/NotFound result: indexing
element `0` of the unawaited `sortBy` promise never yields a stored block
header. -/
theorem C10_getLatestBlock_always_undefined (db : ChainDatabase)
    (network : Network) (now : Int) :
    db.getLatestBlock network now = none :=
  rfl

/-- C1 (failing-input evaluation): on a store holding three blocks for the
same network with timestamps `t1 < t2 < t3`, all within the last 24 hours
of `sampleNow` — and even though the awaited query result would have the
`t3` block first — `getLatestBlock` evaluates to `none`, not to the block
with timestamp `t3`. -/
theorem C1_getLatestBlock_drops_stored_block :
    blockInRecencyWindow sampleNow sampleNetwork sampleBlock1 ∧
    blockInRecencyWindow sampleNow sampleNetwork sampleBlock2 ∧
    blockInRecencyWindow sampleNow sampleNetwork sampleBlock3 ∧
    sampleBlock1.timestamp < sampleBlock2.timestamp ∧
    sampleBlock2.timestamp < sampleBlock3.timestamp ∧
    (sampleBlockDB.latestBlockSortedPromise sampleNetwork
        sampleNow).resolved.head? = some sampleBlock3 ∧
    sampleBlockDB.getLatestBlock sampleNetwork sampleNow = none := by
  refine ⟨by decide, by decide, by decide, by decide, by decide, ?_, rfl⟩
  simp [ChainDatabase.latestBlockSortedPromise, sampleBlockDB, sampleBlock1,
    sampleBlock2, sampleBlock3, sampleNetwork, sampleNow, freshChainDatabase,
    compoundKeyAbove, byTimestampDesc, List.filter]

/-- C8: when no stored block satisfies the 24-hour recency window for the
network — in particular when no block is stored for it at all —
`getLatestBlock` resolves to NotFound (`none`); the embedding is a total
function, so no error is raised. -/
theorem C8_getLatestBlock_empty_window_notFound (db : ChainDatabase)
    (network : Network) (now : Int)
    (_h : ∀ b ∈ db.blocks, ¬ blockInRecencyWindow now network b) :
    db.getLatestBlock network now = none :=
  rfl

/-- Witness for C8: a fresh store holds no block at all, and
`getLatestBlock` on it is NotFound. -/
theorem C8_witness :
    (∀ b ∈ freshChainDatabase.blocks,
      ¬ blockInRecencyWindow sampleNow sampleNetwork b) ∧
    freshChainDatabase.getLatestBlock sampleNetwork sampleNow = none :=
  ⟨by simp [freshChainDatabase], C8_getLatestBlock_empty_window_notFound
    freshChainDatabase sampleNetwork sampleNow (by simp [freshChainDatabase])⟩

/-! ## Theorems about the Transaction Tracker -/

/-- Overwriting only the block-association fields leaves a row's
`[hash+network.name]` key untouched. -/
theorem txKeyMatches_update (txHash networkName : String) (bh : Option Int)
    (bhs : Option String) (t : Transaction) :
    txKeyMatches txHash networkName
        { t with blockHeight := bh, blockHash := bhs } =
      txKeyMatches txHash networkName t :=
  rfl

theorem txKeyMatches_mergeIfMatch (txHash networkName : String)
    (tx : AnyEVMTransaction) (t : Transaction) :
    txKeyMatches txHash networkName (mergeIfMatch tx t) =
      txKeyMatches txHash networkName t := by
  unfold mergeIfMatch
  split <;> rfl

theorem mergeIfMatch_idem (tx : AnyEVMTransaction) (t : Transaction) :
    mergeIfMatch tx (mergeIfMatch tx t) = mergeIfMatch tx t := by
  unfold mergeIfMatch
  by_cases h : txKeyMatches tx.hash tx.network.name t
  · simp [h, txKeyMatches_update]
  · simp [h]

theorem mergeIfMatch_of_no_match (tx : AnyEVMTransaction) (t : Transaction)
    (h : ¬ txKeyMatches tx.hash tx.network.name t) :
    mergeIfMatch tx t = t := by
  simp [mergeIfMatch, h]

theorem txKeyMatches_newTransactionRow (tx : AnyEVMTransaction)
    (src : DataSource) (now : Int) :
    txKeyMatches tx.hash tx.network.name (newTransactionRow tx src now) :=
  by simp [txKeyMatches, newTransactionRow]

theorem mergeIfMatch_newTransactionRow (tx : AnyEVMTransaction)
    (src : DataSource) (now : Int) :
    mergeIfMatch tx (newTransactionRow tx src now) =
      newTransactionRow tx src now := by
  unfold mergeIfMatch
  rw [if_pos (txKeyMatches_newTransactionRow tx src now)]
  rfl

theorem addOrUpdateTransaction_of_find?_some (db : ChainDatabase)
    (tx : AnyEVMTransaction) (src : DataSource) (now : Int) (w : Transaction)
    (h : db.transactions.find? (txKeyMatches tx.hash tx.network.name) =
      some w) :
    db.addOrUpdateTransaction tx src now =
      { db with transactions := db.transactions.map (mergeIfMatch tx) } := by
  unfold ChainDatabase.addOrUpdateTransaction
  rw [h]

theorem addOrUpdateTransaction_of_find?_none (db : ChainDatabase)
    (tx : AnyEVMTransaction) (src : DataSource) (now : Int)
    (h : db.transactions.find? (txKeyMatches tx.hash tx.network.name) =
      none) :
    db.addOrUpdateTransaction tx src now =
      { db with
        transactions := putTransaction db.transactions
          (newTransactionRow tx src now) } := by
  unfold ChainDatabase.addOrUpdateTransaction
  rw [h]

theorem putTransaction_of_absent (rows : List Transaction) (t : Transaction)
    (h : ∀ r ∈ rows, ¬ txKeyMatches t.hash t.network.name r) :
    putTransaction rows t = rows ++ [t] := by
  unfold putTransaction
  rw [if_neg]
  intro hany
  rw [List.any_eq_true] at hany
  obtain ⟨r, hr, hpr⟩ := hany
  exact h r hr hpr

/-- C2: merging an observed transaction into an existing row with the same
`(hash, network.name)` key overwrites exactly `blockHeight` and `blockHash`
with the caller's values (last-write-wins, even if stale); the row count and
every other field of the row — `firstSeen` and `dataSource` included — are
unchanged. -/
theorem C2_addOrUpdateTransaction_merge_frame (db : ChainDatabase)
    (tx : AnyEVMTransaction) (src : DataSource) (now : Int) (i : Nat)
    (t0 : Transaction) (hget : db.transactions[i]? = some t0)
    (hh : t0.hash = tx.hash) (hn : t0.network.name = tx.network.name) :
    (db.addOrUpdateTransaction tx src now).transactions[i]? =
        some { t0 with blockHeight := tx.blockHeight,
                       blockHash := tx.blockHash } ∧
    (db.addOrUpdateTransaction tx src now).transactions.length =
      db.transactions.length ∧
    ({ t0 with blockHeight := tx.blockHeight,
               blockHash := tx.blockHash } : Transaction).firstSeen =
      t0.firstSeen ∧
    ({ t0 with blockHeight := tx.blockHeight,
               blockHash := tx.blockHash } : Transaction).dataSource =
      t0.dataSource ∧
    ({ t0 with blockHeight := tx.blockHeight,
               blockHash := tx.blockHash } : Transaction).hash = t0.hash ∧
    ({ t0 with blockHeight := tx.blockHeight,
               blockHash := tx.blockHash } : Transaction).fromAddr =
      t0.fromAddr ∧
    ({ t0 with blockHeight := tx.blockHeight,
               blockHash := tx.blockHash } : Transaction).toAddr =
      t0.toAddr ∧
    ({ t0 with blockHeight := tx.blockHeight,
               blockHash := tx.blockHash } : Transaction).nonce = t0.nonce ∧
    ({ t0 with blockHeight := tx.blockHeight,
               blockHash := tx.blockHash } : Transaction).value = t0.value ∧
    ({ t0 with blockHeight := tx.blockHeight,
               blockHash := tx.blockHash } : Transaction).input = t0.input ∧
    ({ t0 with blockHeight := tx.blockHeight,
               blockHash := tx.blockHash } : Transaction).network =
      t0.network := by
  have hp : txKeyMatches tx.hash tx.network.name t0 = true := by
    simp [txKeyMatches, hh, hn]
  have hsome :
      (db.transactions.find? (txKeyMatches tx.hash tx.network.name)).isSome :=
    List.find?_isSome.mpr ⟨t0, List.getElem?_mem hget, hp⟩
  obtain ⟨w, hw⟩ := Option.isSome_iff_exists.mp hsome
  rw [addOrUpdateTransaction_of_find?_some db tx src now w hw]
  refine ⟨?_, by simp, rfl, rfl, rfl, rfl, rfl, rfl, rfl, rfl, rfl⟩
  show (db.transactions.map (mergeIfMatch tx))[i]? = _
  rw [List.getElem?_map, hget]
  simp [mergeIfMatch, hp]

/-- Witness for C2: merging the confirmed observation of `sampleTxPending`
into the store updates the stored row's block association in place. -/
theorem C2_witness :
    (sampleTxDB.addOrUpdateTransaction sampleTxConfirmed DataSource.alchemy
        sampleNow).transactions[0]? =
      some { sampleStoredTx with
              blockHeight := sampleTxConfirmed.blockHeight,
              blockHash := sampleTxConfirmed.blockHash } :=
  (C2_addOrUpdateTransaction_merge_frame sampleTxDB sampleTxConfirmed
    DataSource.alchemy sampleNow 0 sampleStoredTx rfl rfl rfl).1

/-- C3: `addOrUpdateTransaction` is idempotent — running it twice with the
same transaction value and data source leaves the store exactly as one run
does, whatever the starting state and whatever the two clock readings. -/
theorem C3_addOrUpdateTransaction_idempotent (db : ChainDatabase)
    (tx : AnyEVMTransaction) (src : DataSource) (now₁ now₂ : Int) :
    (db.addOrUpdateTransaction tx src now₁).addOrUpdateTransaction tx src
        now₂ =
      db.addOrUpdateTransaction tx src now₁ := by
  have hcomp : (txKeyMatches tx.hash tx.network.name ∘ mergeIfMatch tx) =
      txKeyMatches tx.hash tx.network.name :=
    funext fun t => txKeyMatches_mergeIfMatch tx.hash tx.network.name tx t
  cases hfind : db.transactions.find? (txKeyMatches tx.hash tx.network.name)
    with
  | some w =>
    rw [addOrUpdateTransaction_of_find?_some db tx src now₁ w hfind]
    have hfind2 : ((db.transactions.map (mergeIfMatch tx)).find?
        (txKeyMatches tx.hash tx.network.name)) = some (mergeIfMatch tx w) :=
      by rw [List.find?_map, hcomp, hfind]; rfl
    rw [addOrUpdateTransaction_of_find?_some _ tx src now₂ _ hfind2]
    have hmaps : (db.transactions.map (mergeIfMatch tx)).map
        (mergeIfMatch tx) = db.transactions.map (mergeIfMatch tx) := by
      rw [List.map_map]
      exact List.map_congr_left fun t _ => mergeIfMatch_idem tx t
    simp [hmaps]
  | none =>
    have hall : ∀ t ∈ db.transactions,
        ¬ txKeyMatches tx.hash tx.network.name t :=
      List.find?_eq_none.mp hfind
    rw [addOrUpdateTransaction_of_find?_none db tx src now₁ hfind,
      putTransaction_of_absent db.transactions (newTransactionRow tx src now₁)
        hall]
    have hfind2 : ((db.transactions ++ [newTransactionRow tx src now₁]).find?
        (txKeyMatches tx.hash tx.network.name)) =
        some (newTransactionRow tx src now₁) := by
      rw [List.find?_append, hfind]
      simp [List.find?_cons, txKeyMatches_newTransactionRow]
    rw [addOrUpdateTransaction_of_find?_some _ tx src now₂ _ hfind2]
    have hmapfix : ∀ l : List Transaction,
        (∀ t ∈ l, ¬ txKeyMatches tx.hash tx.network.name t) →
        l.map (mergeIfMatch tx) = l := by
      intro l hl
      induction l with
      | nil => rfl
      | cons a as ih =>
        rw [List.map_cons, mergeIfMatch_of_no_match tx a (hl a (by simp)),
          ih (fun t ht => hl t (by simp [ht]))]
    have hmap : (db.transactions ++ [newTransactionRow tx src now₁]).map
        (mergeIfMatch tx) = db.transactions ++ [newTransactionRow tx src now₁]
        := by
      rw [List.map_append, hmapfix db.transactions hall]
      simp [mergeIfMatch_newTransactionRow]
    simp [hmap]

/-- C4: inserting a transaction whose `(hash, network.name)` key is absent
appends exactly one new row carrying all of `tx`'s fields plus
`firstSeen = now` and the supplied `dataSource`; `getTransaction` then
returns that row, whose `firstSeen` is set. -/
theorem C4_addOrUpdateTransaction_insert (db : ChainDatabase)
    (tx : AnyEVMTransaction) (src : DataSource) (now : Int)
    (habsent : ∀ t ∈ db.transactions,
      ¬ (t.hash = tx.hash ∧ t.network.name = tx.network.name)) :
    (db.addOrUpdateTransaction tx src now).transactions =
        db.transactions ++ [newTransactionRow tx src now] ∧
    (db.addOrUpdateTransaction tx src now).getTransaction tx.network tx.hash
        = some (newTransactionRow tx src now) ∧
    (newTransactionRow tx src now).firstSeen = now ∧
    (newTransactionRow tx src now).dataSource = src ∧
    (newTransactionRow tx src now).toAnyEVMTransaction = tx := by
  have hfalse : ∀ t ∈ db.transactions,
      ¬ txKeyMatches tx.hash tx.network.name t := by
    intro t ht hmatch
    exact habsent t ht (by simpa [txKeyMatches] using hmatch)
  have hfind : db.transactions.find? (txKeyMatches tx.hash tx.network.name) =
      none := List.find?_eq_none.mpr hfalse
  rw [addOrUpdateTransaction_of_find?_none db tx src now hfind,
    putTransaction_of_absent db.transactions (newTransactionRow tx src now)
      hfalse]
  refine ⟨rfl, ?_, rfl, rfl, rfl⟩
  show ((db.transactions ++ [newTransactionRow tx src now]).filter
    (txKeyMatches tx.hash tx.network.name)).head? = _
  rw [List.filter_append, List.filter_eq_nil_iff.mpr hfalse]
  simp [List.filter, txKeyMatches_newTransactionRow]

/-- Witness for C4: inserting `sampleTxPending` into an empty store appends
one fully-populated row, retrievable through `getTransaction`. -/
theorem C4_witness :
    (freshChainDatabase.addOrUpdateTransaction sampleTxPending
        DataSource.local' sampleNow).getTransaction sampleNetwork
        sampleTxPending.hash =
      some (newTransactionRow sampleTxPending DataSource.local' sampleNow) :=
  (C4_addOrUpdateTransaction_insert freshChainDatabase sampleTxPending
    DataSource.local' sampleNow (by simp [freshChainDatabase])).2.1

/-! ## Theorems about the Balance Tracker -/

theorem mem_balanceCandidates (db : ChainDatabase) (account : String)
    (network : Network) (asset : FungibleAsset) (now : Int)
    (b : AccountBalance) :
    b ∈ db.balanceCandidates account network asset now ↔
      b ∈ db.balances ∧ balanceQualifies account network asset now b := by
  simp only [ChainDatabase.balanceCandidates, List.mem_insertionSort,
    List.mem_filter, balanceMatches, balanceQualifies, Bool.and_eq_true,
    beq_iff_eq, decide_eq_true_eq]
  tauto

/-- C5: `getLatestAccountBalance` returns, among the stored rows strictly
inside the 7-day freshness window that exactly match account, asset symbol
and network name, one with the greatest `retrievedAt`, and `none` exactly
when no row qualifies: whenever any qualifying row is stored the result is
`some` maximal qualifying row (soundness and completeness); a row retrieved
8 days ago is never returned, while a matching row retrieved 6 days ago
guarantees a result. -/
theorem C5_getLatestAccountBalance_correct (db : ChainDatabase)
    (account : String) (network : Network) (asset : FungibleAsset)
    (now : Int) :
    (∀ b, db.getLatestAccountBalance account network asset now = some b →
      b ∈ db.balances ∧ balanceQualifies account network asset now b ∧
      ∀ b' ∈ db.balances, balanceQualifies account network asset now b' →
        b'.retrievedAt ≤ b.retrievedAt) ∧
    ((∀ b ∈ db.balances, ¬ balanceQualifies account network asset now b) →
      db.getLatestAccountBalance account network asset now = none) ∧
    (∀ b, db.getLatestAccountBalance account network asset now = some b →
      b.retrievedAt ≠ now - 8 * 24 * 60 * 60 * 1000) ∧
    (∀ b ∈ db.balances, balanceMatches account network asset b →
      b.retrievedAt = now - 6 * 24 * 60 * 60 * 1000 →
      db.getLatestAccountBalance account network asset now ≠ none) ∧
    (∀ b ∈ db.balances, balanceQualifies account network asset now b →
      db.getLatestAccountBalance account network asset now ≠ none) := by
  have hsorted : (db.balanceCandidates account network asset now).Sorted
      byRetrievedAtDesc := List.sorted_insertionSort byRetrievedAtDesc _
  have hres : db.getLatestAccountBalance account network asset now =
      (db.balanceCandidates account network asset now).head? := by
    unfold ChainDatabase.getLatestAccountBalance
    cases db.balanceCandidates account network asset now with
    | nil => rfl
    | cons x rest => simp
  rw [hres]
  cases hC : db.balanceCandidates account network asset now with
  | nil =>
    rw [hC] at hsorted
    have hforce : ∀ b ∈ db.balances,
        balanceQualifies account network asset now b → False := by
      intro b hb hq
      have : b ∈ db.balanceCandidates account network asset now :=
        (mem_balanceCandidates db account network asset now b).mpr ⟨hb, hq⟩
      rw [hC] at this
      exact absurd this (List.not_mem_nil b)
    refine ⟨by simp, fun _ => rfl, by simp, ?_, ?_⟩
    · intro b hb hmatch hret hnone
      apply hforce b hb
      refine ⟨by omega, ?_⟩
      have := by simpa [balanceMatches, Bool.and_eq_true, beq_iff_eq]
        using hmatch
      tauto
    · intro b hb hq hnone
      exact hforce b hb hq
  | cons x rest =>
    rw [hC] at hsorted
    have hx : x ∈ db.balances ∧ balanceQualifies account network asset now x
        := by
      have : x ∈ db.balanceCandidates account network asset now := by
        rw [hC]; exact List.mem_cons_self x rest
      exact (mem_balanceCandidates db account network asset now x).mp this
    refine ⟨?_, ?_, ?_, fun b _ _ _ hnone => by simp at hnone,
      fun b _ _ hnone => by simp at hnone⟩
    · intro b hb
      rw [List.head?_cons, Option.some.injEq] at hb
      subst hb
      refine ⟨hx.1, hx.2, ?_⟩
      intro b' hb' hq'
      have hmem : b' ∈ db.balanceCandidates account network asset now :=
        (mem_balanceCandidates db account network asset now b').mpr ⟨hb', hq'⟩
      rw [hC] at hmem
      rcases List.mem_cons.mp hmem with heq | htail
      · rw [heq]
      · exact List.rel_of_sorted_cons hsorted b' htail
    · intro hnone
      exact absurd hx.2 (hnone x hx.1)
    · intro b hb
      rw [List.head?_cons, Option.some.injEq] at hb
      subst hb
      have := hx.2.1
      omega

/-- Witness for C5: on a store whose only balance row was retrieved 8 days
ago, `getLatestAccountBalance` is NotFound. -/
theorem C5_witness :
    sampleStaleBalanceDB.getLatestAccountBalance "0xacc" sampleNetwork
      sampleAsset sampleNow = none :=
  (C5_getLatestAccountBalance_correct sampleStaleBalanceDB "0xacc"
    sampleNetwork sampleAsset sampleNow).2.1 (by decide)

/-! ## Theorems about the Account Tracking Registry -/

theorem map_fixes_self {α : Type} (g : α → α) :
    ∀ l : List α, (∀ r ∈ l, g r = r) → l.map g = l := by
  intro l h
  induction l with
  | nil => rfl
  | cons x xs ih =>
    rw [List.map_cons, h x (by simp), ih (fun r hr => h r (by simp [hr]))]

theorem bulkAddAccountNetworks_eq_append :
    ∀ (l acc out : List AccountNetwork),
      bulkAddAccountNetworks acc l = some out → out = acc ++ l := by
  intro l
  induction l with
  | nil =>
    intro acc out h
    rw [List.append_nil]
    exact (Option.some.inj h).symm
  | cons a rest ih =>
    intro acc out h
    unfold bulkAddAccountNetworks at h
    split at h
    · exact absurd h (by simp)
    · rw [ih (acc ++ [a]) out h, List.append_assoc]
      rfl

/-- C6: a completed `setAccountsToTrack(entries)` call leaves the registry
holding exactly `entries` — the previous registry contents are gone — and
touches no other table; `getAccountsToTrack` then returns `entries`. -/
theorem C6_setAccountsToTrack_replaces (db db' : ChainDatabase)
    (entries : List AccountNetwork)
    (h : db.setAccountsToTrack entries = some db') :
    db'.getAccountsToTrack = entries ∧
    db'.accountsToTrack = entries ∧
    db'.blocks = db.blocks ∧ db'.transactions = db.transactions ∧
    db'.balances = db.balances ∧ db'.migrations = db.migrations := by
  unfold ChainDatabase.setAccountsToTrack at h
  cases hb : bulkAddAccountNetworks [] entries with
  | none => rw [hb] at h; exact absurd h (by simp)
  | some rows =>
    rw [hb] at h
    have hrows : rows = entries := by
      simpa using bulkAddAccountNetworks_eq_append entries [] rows hb
    have hdb : db' = { db with accountsToTrack := rows } :=
      (Option.some.inj h).symm
    subst hdb
    simp [ChainDatabase.getAccountsToTrack, hrows]

/-- Witness for C6: replacing the registry of a fresh store with two
entries makes `getAccountsToTrack` return exactly those two entries. -/
theorem C6_witness :
    ({ freshChainDatabase with
        accountsToTrack := [sampleAN1, sampleAN3] } :
      ChainDatabase).getAccountsToTrack = [sampleAN1, sampleAN3] :=
  (C6_setAccountsToTrack_replaces freshChainDatabase
    { freshChainDatabase with accountsToTrack := [sampleAN1, sampleAN3] }
    [sampleAN1, sampleAN3] (by decide)).1

theorem accountNetworkKey_replace (a r : AccountNetwork) :
    accountNetworkKey
        (if accountNetworkKey r = accountNetworkKey a then a else r) =
      accountNetworkKey r := by
  split
  · next h => exact h.symm
  · rfl

theorem mem_putAccountNetwork_self (rows : List AccountNetwork)
    (a : AccountNetwork) : a ∈ putAccountNetwork rows a := by
  unfold putAccountNetwork
  split
  · next hany =>
    rw [List.any_eq_true] at hany
    obtain ⟨r, hr, hkr⟩ := hany
    rw [decide_eq_true_eq] at hkr
    exact List.mem_map.mpr ⟨r, hr, by rw [if_pos hkr]⟩
  · exact List.mem_append_right rows (List.mem_singleton.mpr rfl)

theorem mem_putAccountNetwork_of_ne (rows : List AccountNetwork)
    (a r : AccountNetwork) (hr : r ∈ rows)
    (hne : accountNetworkKey r ≠ accountNetworkKey a) :
    r ∈ putAccountNetwork rows a := by
  unfold putAccountNetwork
  split
  · exact List.mem_map.mpr ⟨r, hr, by rw [if_neg hne]⟩
  · exact List.mem_append_left _ hr

theorem eq_of_mem_putAccountNetwork (rows : List AccountNetwork)
    (a r : AccountNetwork) (hr : r ∈ putAccountNetwork rows a)
    (hk : accountNetworkKey r = accountNetworkKey a) : r = a := by
  unfold putAccountNetwork at hr
  split at hr
  · obtain ⟨r', hr', hfr⟩ := List.mem_map.mp hr
    by_cases h' : accountNetworkKey r' = accountNetworkKey a
    · rw [if_pos h'] at hfr; exact hfr.symm
    · rw [if_neg h'] at hfr; rw [hfr] at h'; exact absurd hk h'
  · next hany =>
    rcases List.mem_append.mp hr with hin | hsingle
    · exfalso
      exact hany (List.any_eq_true.mpr ⟨r, hin, decide_eq_true hk⟩)
    · exact List.mem_singleton.mp hsingle

theorem putAccountNetwork_of_any (rows : List AccountNetwork)
    (a : AccountNetwork)
    (h : rows.any
      (fun r => decide (accountNetworkKey r = accountNetworkKey a)) = true) :
    putAccountNetwork rows a = rows.map
      (fun r => if accountNetworkKey r = accountNetworkKey a then a else r)
      := by
  unfold putAccountNetwork
  rw [if_pos h]

theorem putAccountNetwork_idem (rows : List AccountNetwork)
    (a : AccountNetwork) :
    putAccountNetwork (putAccountNetwork rows a) a =
      putAccountNetwork rows a := by
  have hany : (putAccountNetwork rows a).any
      (fun r => decide (accountNetworkKey r = accountNetworkKey a)) = true :=
    List.any_eq_true.mpr
      ⟨a, mem_putAccountNetwork_self rows a, decide_eq_true rfl⟩
  rw [putAccountNetwork_of_any (putAccountNetwork rows a) a hany]
  exact map_fixes_self _ _ (fun r hr => by
    by_cases hk : accountNetworkKey r = accountNetworkKey a
    · rw [if_pos hk]
      exact (eq_of_mem_putAccountNetwork rows a r hr hk).symm
    · rw [if_neg hk])

theorem pairwise_putAccountNetwork (rows : List AccountNetwork)
    (a : AccountNetwork)
    (hpw : rows.Pairwise
      (fun x y => accountNetworkKey x ≠ accountNetworkKey y)) :
    (putAccountNetwork rows a).Pairwise
      (fun x y => accountNetworkKey x ≠ accountNetworkKey y) := by
  unfold putAccountNetwork
  split
  · refine List.Pairwise.map _ ?_ hpw
    intro x y hxy
    rw [accountNetworkKey_replace a x, accountNetworkKey_replace a y]
    exact hxy
  · next hany =>
    rw [List.pairwise_append]
    refine ⟨hpw, List.pairwise_singleton _ _, ?_⟩
    intro x hx y hy
    rw [List.mem_singleton.mp hy]
    intro hk
    exact hany (List.any_eq_true.mpr ⟨x, hx, decide_eq_true hk⟩)

/-- C7 amended: `addAccountToTrack` upserts by the three-component key
`(account, network.name, network.chainID)` — `network.family` is not part
of the key: the added entry is present afterwards, rows with a different
key survive, any row carrying the added entry's key is the added entry
itself, the operation is idempotent, and key-uniqueness of the registry is
preserved. -/
theorem C7_addAccountToTrack_key_semantics (db : ChainDatabase)
    (a : AccountNetwork) :
    a ∈ (db.addAccountToTrack a).accountsToTrack ∧
    (∀ r ∈ db.accountsToTrack,
      accountNetworkKey r ≠ accountNetworkKey a →
      r ∈ (db.addAccountToTrack a).accountsToTrack) ∧
    (∀ r ∈ (db.addAccountToTrack a).accountsToTrack,
      accountNetworkKey r = accountNetworkKey a → r = a) ∧
    (db.addAccountToTrack a).addAccountToTrack a = db.addAccountToTrack a ∧
    (db.accountsToTrack.Pairwise
        (fun x y => accountNetworkKey x ≠ accountNetworkKey y) →
      (db.addAccountToTrack a).accountsToTrack.Pairwise
        (fun x y => accountNetworkKey x ≠ accountNetworkKey y)) := by
  refine ⟨mem_putAccountNetwork_self db.accountsToTrack a,
    fun r hr hne => mem_putAccountNetwork_of_ne db.accountsToTrack a r hr hne,
    fun r hr hk => eq_of_mem_putAccountNetwork db.accountsToTrack a r hr hk,
    ?_, fun hpw => pairwise_putAccountNetwork db.accountsToTrack a hpw⟩
  show { db with accountsToTrack :=
      putAccountNetwork (putAccountNetwork db.accountsToTrack a) a } = _
  rw [putAccountNetwork_idem]
  rfl

/-- Witness for C7 (amended): adding `sampleAN1` twice to a fresh store
leaves the registry with the single row `sampleAN1`, and a second add is a
no-op. -/
theorem C7_witness :
    (freshChainDatabase.addAccountToTrack sampleAN1).addAccountToTrack
        sampleAN1 = freshChainDatabase.addAccountToTrack sampleAN1 :=
  (C7_addAccountToTrack_key_semantics freshChainDatabase sampleAN1).2.2.2.1

/-- C7 counterexample: two entries that agree on `account`, `network.name`
and `network.chainID` but differ in `network.family` do NOT coexist —
adding both leaves a single registry row, the second entry. -/
theorem C7_counterexample_family_not_in_key :
    sampleAN1 ≠ sampleAN2 ∧
    sampleAN1.account = sampleAN2.account ∧
    sampleAN1.network.name = sampleAN2.network.name ∧
    sampleAN1.network.chainID = sampleAN2.network.chainID ∧
    sampleAN1.network.family ≠ sampleAN2.network.family ∧
    ((freshChainDatabase.addAccountToTrack sampleAN1).addAccountToTrack
        sampleAN2).accountsToTrack = [sampleAN2] := by
  decide

/-! ## Theorems about the Bootstrap/Migration Ledger -/

theorem getOrCreateDB_of_nonempty (db : ChainDatabase) (now : Int)
    (h : db.migrations ≠ []) : getOrCreateDB db now = db := by
  unfold getOrCreateDB
  rw [if_neg]
  simpa [List.length_eq_zero] using h

theorem getOrCreateDBRuns_of_nonempty :
    ∀ (ts : List Int) (db : ChainDatabase), db.migrations ≠ [] →
      getOrCreateDBRuns db ts = db := by
  intro ts
  induction ts with
  | nil => intro db _; rfl
  | cons t ts ih =>
    intro db h
    show getOrCreateDBRuns (getOrCreateDB db t) ts = db
    rw [getOrCreateDB_of_nonempty db t h]
    exact ih db h

/-- C9: the bootstrap in `getOrCreateDB` is idempotent — a second call
never writes — and any non-empty sequence of calls starting from an empty
migrations ledger leaves exactly the one sentinel row
`{ id: 0, appliedAt: t }` stamped by the first call. -/
theorem C9_getOrCreateDB_bootstrap (db : ChainDatabase)
    (now now' t : Int) (ts : List Int) :
    getOrCreateDB (getOrCreateDB db now) now' = getOrCreateDB db now ∧
    (db.migrations = [] →
      (getOrCreateDBRuns db (t :: ts)).migrations =
        [{ id := 0, appliedAt := t }]) := by
  constructor
  · by_cases h : db.migrations.length = 0
    · have h0 : db.migrations = [] := List.length_eq_zero.mp h
      simp [getOrCreateDB, h0]
    · simp [getOrCreateDB, h]
  · intro h0
    show (getOrCreateDBRuns (getOrCreateDB db t) ts).migrations = _
    have hstep : getOrCreateDB db t =
        { db with migrations := [{ id := 0, appliedAt := t }] } := by
      simp [getOrCreateDB, h0]
    rw [hstep, getOrCreateDBRuns_of_nonempty ts _ (by simp)]

/-- Witness for C9: two consecutive opens of a fresh store create exactly
one sentinel row, stamped by the first open. -/
theorem C9_witness :
    (getOrCreateDBRuns freshChainDatabase
        [sampleNow, sampleNow + 5]).migrations =
      [{ id := 0, appliedAt := sampleNow }] :=
  (C9_getOrCreateDB_bootstrap freshChainDatabase 0 0 sampleNow
    [sampleNow + 5]).2 rfl

end Taho
